import Mathlib

set_option maxHeartbeats 1000000

/-!
Verification development for the result-aggregation script
`8_capstone_project/process_results.py`.

The script is embedded shallowly: JSON values become an inductive type,
CPython dicts become association lists in insertion order, the directory
tree becomes an explicit three-level filesystem value (the script never
descends deeper than `root/author/model/file`), exceptions become an error
type threaded through `Except`, and the in-place mutation performed by
`extract_results` is made visible as an explicit post-state of its input.
Logging is modelled as an explicit list of emitted log messages.
-/

namespace SmolProc

/-- JSON values as produced by `json.load`: null, booleans, numbers,
strings, arrays and objects.  Objects are association lists in insertion
order, which is the iteration order CPython dicts preserve.  `json.load`
never yields a dict with duplicate keys (a duplicate key in the input text
keeps only the last binding), so field lists of parsed objects have
pairwise distinct keys; lemmas that depend on this take it as a `Nodup`
hypothesis. -/
inductive JVal where
  | null : JVal
  | bool (b : Bool) : JVal
  | num (q : Rat) : JVal
  | str (s : String) : JVal
  | arr (xs : List JVal) : JVal
  | obj (fields : List (String × JVal)) : JVal

/-- A CPython dict with string keys, as an association list in insertion
order. -/
abbrev Dict := List (String × JVal)

/-- Dict lookup `d[k]` restricted to present keys: the first binding of the
key (the only one, for lists representing actual dicts). -/
def getKey : Dict → String → Option JVal
  | [], _ => none
  | (k, v) :: rest, q => if k = q then some v else getKey rest q

/-- Dict assignment `d[k] = v` in CPython semantics: an existing key keeps
its position and gets the new value, a new key is appended at the end. -/
def setKey : Dict → String → JVal → Dict
  | [], q, x => [(q, x)]
  | (k, v) :: rest, q, x =>
      if k = q then (k, x) :: rest else (k, v) :: setKey rest q x

/-- The keys of a dict, in insertion order. -/
def keysOf (d : Dict) : List String := d.map Prod.fst

/-- Python exceptions that the script can raise or catch. -/
inductive PyErr where
  | fileNotFoundError (path : String) : PyErr
  | osError (msg : String) : PyErr
  | jsonDecodeError (path : String) : PyErr
  | keyError (k : String) : PyErr
  | typeError (msg : String) : PyErr
  | attributeError (msg : String) : PyErr
  | valueError (msg : String) : PyErr
  | uploadError (msg : String) : PyErr
deriving DecidableEq

/-- Python subscription `v[k]` with a string key: on a dict it is a lookup
raising `KeyError` for an absent key; on every other JSON value it raises
`TypeError`. -/
def pySubscr (v : JVal) (k : String) : Except PyErr JVal :=
  match v with
  | .obj fields =>
      match getKey fields k with
      | some x => .ok x
      | none => .error (.keyError k)
  | _ => .error (.typeError "object is not subscriptable")

/-- Python `v.items()`: the key/value pairs of a dict in insertion order;
any non-dict raises `AttributeError`. -/
def pyItems (v : JVal) : Except PyErr Dict :=
  match v with
  | .obj fields => .ok fields
  | _ => .error (.attributeError "items")

/-- Python item assignment `v[k] = x` on a JSON value: dicts are updated,
everything else raises `TypeError`. -/
def pySetItem (v : JVal) (k : String) (x : JVal) : Except PyErr JVal :=
  match v with
  | .obj fields => .ok (.obj (setKey fields k x))
  | _ => .error (.typeError "object does not support item assignment")

/-- The loop `for task_name, task_score in items: model_results[task_name]
= task_score` of `extract_results`, lines 38-40 of the source: each pair is
assigned in order, and a `TypeError` from an assignment aborts the loop. -/
def foldSetItems : Dict → JVal → Except PyErr JVal
  | [], acc => .ok acc
  | (k, v) :: rest, acc =>
      match pySetItem acc k v with
      | .error e => .error e
      | .ok acc2 => foldSetItems rest acc2

/-- Pure form of the assignment loop when the accumulator is a dict:
insert every pair of the first dict into the second, in order. -/
def mergeAll : Dict → Dict → Dict
  | [], base => base
  | (k, v) :: rest, base => mergeAll rest (setKey base k v)

/-- Embedding of `extract_results` (source lines 27-44).  The Python code
binds `model_results = eval_results["config_general"]`, inserts every pair
of `eval_results["results"]["all"]` into it, and returns it.  Since
`model_results` is the very dict object stored under `"config_general"`
(CPython assignment does not copy), the insertions are visible through the
caller argument; the embedding returns the record together with the
post-call state of `eval_results`.  The `try/except KeyError` of the
source only logs and re-raises, so the error value passes through
unchanged; the log line is attached at the call site in
`process_result_file`.  The two sub-objects of a freshly parsed JSON value
never alias each other, which is what lets the loop be a pure fold. -/
def extract_results (eval_results : JVal) : Except PyErr (JVal × JVal) :=
  match pySubscr eval_results "config_general" with
  | .error e => .error e
  | .ok model_results =>
    match pySubscr eval_results "results" with
    | .error e => .error e
    | .ok res =>
      match pySubscr res "all" with
      | .error e => .error e
      | .ok allv =>
        match pyItems allv with
        | .error e => .error e
        | .ok allItems =>
          match foldSetItems allItems model_results with
          | .error e => .error e
          | .ok final =>
            match pySetItem eval_results "config_general" final with
            | .error e => .error e
            | .ok post => .ok (final, post)

/-- Outcome of opening and `json.load`-ing one file: an operating-system
error while opening or reading, invalid JSON, or a parsed value. -/
inductive ReadResult where
  | ioError (msg : String) : ReadResult
  | badJson : ReadResult
  | ok (v : JVal) : ReadResult

/-- An entry of a model directory, the third level below the root.  The
script never descends into a directory at this level (opening it raises
IsADirectoryError), so its contents are not modelled. -/
inductive L3Entry where
  | file (nm : String) (r : ReadResult) : L3Entry
  | dir (nm : String) : L3Entry

/-- Name of a third-level entry. -/
def L3Entry.ename : L3Entry → String
  | .file nm _ => nm
  | .dir nm => nm

/-- An entry of an author directory, the second level below the root: a
non-directory (skipped by the `is_dir` check, contents irrelevant) or a
model directory whose own listing may fail with an operating-system
error. -/
inductive L2Entry where
  | file (nm : String) : L2Entry
  | dir (nm : String) (listing : Except String (List L3Entry)) : L2Entry

/-- A first-level entry below the root: a non-directory or an author
directory whose listing may fail. -/
inductive L1Entry where
  | file (nm : String) : L1Entry
  | dir (nm : String) (listing : Except String (List L2Entry)) : L1Entry

/-- The root results path: missing, an existing non-directory, or a
directory whose listing may itself fail with an operating-system error. -/
inductive RootFs where
  | missing : RootFs
  | file : RootFs
  | dir (listing : Except String (List L1Entry)) : RootFs

/-- A log message emitted through the module logger. -/
inductive LogMsg where
  | error (msg : String) : LogMsg
  | warning (msg : String) : LogMsg
  | info (msg : String) : LogMsg
deriving DecidableEq

/-- Log lines emitted by `extract_results` itself before re-raising: its
`except KeyError` handler logs the missing key; every other exception
escapes it without a log of its own. -/
def extractLogs : PyErr → List LogMsg
  | .keyError k => [LogMsg.error ("Missing required key in evaluation results: " ++ k)]
  | _ => []

/-- Embedding of `process_result_file` (source lines 90-109): open the
path, parse it, extract the record.  `JSONDecodeError` is logged with the
invalid-JSON message; every other exception is logged with the generic
per-file message; both are re-raised.  Opening a directory raises
IsADirectoryError, an `OSError`. -/
def process_result_file (path : String) (e : L3Entry) : Except PyErr JVal × List LogMsg :=
  match e with
  | .dir _ =>
      (.error (.osError "IsADirectoryError"),
       [LogMsg.error ("Error processing file " ++ path)])
  | .file _ (.ioError m) =>
      (.error (.osError m), [LogMsg.error ("Error processing file " ++ path)])
  | .file _ .badJson =>
      (.error (.jsonDecodeError path), [LogMsg.error ("Invalid JSON in file: " ++ path)])
  | .file _ (.ok v) =>
      match extract_results v with
      | .ok pr => (.ok pr.1, [])
      | .error err =>
          (.error err, extractLogs err ++ [LogMsg.error ("Error processing file " ++ path)])

/-- One attempt of the per-file loop body (source lines 74-78): call
`process_result_file`; on failure the `except` handler logs once more and
the file is skipped. -/
def attemptFile (path : String) (e : L3Entry) : Option JVal × List LogMsg :=
  match process_result_file path e with
  | (.ok rc, lgs) => (some rc, lgs)
  | (.error _, lgs) => (none, lgs ++ [LogMsg.error ("Error processing file " ++ path)])

/-- Index of the last dot in a list of characters. -/
def lastDotIdx : List Char → Option Nat
  | [] => none
  | c :: cs =>
      match lastDotIdx cs with
      | some i => some (i + 1)
      | none => if c = '.' then some 0 else none

/-- Embedding of `pathlib.PurePath.suffix` on a final path component: the
substring from the last dot, provided that dot is neither the first nor
the last character; otherwise the empty string.  In particular a file
named exactly `.json` has an empty suffix. -/
def pathSuffix (nm : String) : String :=
  match lastDotIdx nm.toList with
  | some i =>
      if 0 < i ∧ i + 1 < nm.toList.length then String.mk (nm.toList.drop i) else ""
  | none => ""

/-- The filter of the innermost loop, line 71 of the source:
`file.suffix == ".json"`.  It is applied to every third-level entry,
directories included. -/
def jsonMatch (e : L3Entry) : Bool := pathSuffix e.ename == ".json"

/-- Mutable state of `get_results_from_dir`: the accumulated record list,
the log lines emitted so far, and the paths passed to
`process_result_file` (the processed entries), all in order. -/
structure WalkSt where
  results : List JVal
  logs : List LogMsg
  attempted : List String

/-- Effect on the walk state of attempting one matching third-level
entry. -/
def stepFile (p : String) (st : WalkSt) (e : L3Entry) : WalkSt :=
  { st with
    results := st.results ++ ((attemptFile (p ++ "/" ++ e.ename) e).1).toList
    logs := st.logs ++ (attemptFile (p ++ "/" ++ e.ename) e).2
    attempted := st.attempted ++ [p ++ "/" ++ e.ename] }

/-- The innermost loop of `get_results_from_dir` (lines 70-78): every
entry of the model directory whose suffix is `.json` is attempted;
failures are caught, logged and skipped, so this loop never raises. -/
def walkFiles (p : String) (st : WalkSt) : List L3Entry → WalkSt
  | [] => st
  | e :: rest =>
      if jsonMatch e then walkFiles p (stepFile p st e) rest
      else walkFiles p st rest

/-- Result of a loop of the walker: a normal return or a propagating
exception.  The carried state keeps the logs emitted and files attempted
before the exception. -/
inductive WRes where
  | ok (st : WalkSt) : WRes
  | raised (e : PyErr) (st : WalkSt) : WRes

/-- The middle loop (lines 66-78): non-directories are skipped by the
`is_dir` check; a failing listing of a model directory raises outside the
per-file handler and so aborts the walk. -/
def walkModels (p : String) (st : WalkSt) : List L2Entry → WRes
  | [] => .ok st
  | L2Entry.file _ :: rest => walkModels p st rest
  | L2Entry.dir _ (.error m) :: _ => .raised (.osError m) st
  | L2Entry.dir nm (.ok fs) :: rest =>
      walkModels p (walkFiles (p ++ "/" ++ nm) st fs) rest

/-- The outer loop (lines 62-78) over the root listing. -/
def walkAuthors (p : String) (st : WalkSt) : List L1Entry → WRes
  | [] => .ok st
  | L1Entry.file _ :: rest => walkAuthors p st rest
  | L1Entry.dir _ (.error m) :: _ => .raised (.osError m) st
  | L1Entry.dir nm (.ok models) :: rest =>
      match walkModels (p ++ "/" ++ nm) st models with
      | .ok st2 => walkAuthors p st2 rest
      | .raised e st2 => .raised e st2

/-- The empty walk state. -/
def emptySt : WalkSt := ⟨[], [], []⟩

/-- The warning of line 81 of the source. -/
def noResultsWarning : LogMsg :=
  LogMsg.warning "No valid result files found in the specified directory"

/-- The log line of the outer exception handler, line 86 of the source. -/
def dirErrorLog : LogMsg := LogMsg.error "Error reading results directory"

/-- Embedding of `get_results_from_dir` (source lines 47-87): raise
`FileNotFoundError` when the root path does not exist; walk the tree;
warn when the final list is empty; on any exception escaping the loops,
log and re-raise.  A root that exists but is not a directory passes the
existence check and then `iterdir` raises NotADirectoryError, an
`OSError`, caught by the outer handler. -/
def get_results_from_dir (p : String) (fs : RootFs) : WRes :=
  match fs with
  | .missing => .raised (.fileNotFoundError p) emptySt
  | .file => .raised (.osError "NotADirectoryError") { emptySt with logs := [dirErrorLog] }
  | .dir (.error m) => .raised (.osError m) { emptySt with logs := [dirErrorLog] }
  | .dir (.ok l1) =>
      match walkAuthors p emptySt l1 with
      | .ok st =>
          if st.results.isEmpty then .ok { st with logs := st.logs ++ [noResultsWarning] }
          else .ok st
      | .raised e st => .raised e { st with logs := st.logs ++ [dirErrorLog] }

/-- The records contributed by a list of third-level entries: for each
entry with suffix `.json`, in order, the record of a successful attempt
and nothing for a failed one. -/
def resultsL3 (p : String) : List L3Entry → List JVal
  | [] => []
  | e :: rest =>
      if jsonMatch e then
        ((attemptFile (p ++ "/" ++ e.ename) e).1).toList ++ resultsL3 p rest
      else resultsL3 p rest

/-- The log lines contributed by a list of third-level entries. -/
def logsL3 (p : String) : List L3Entry → List LogMsg
  | [] => []
  | e :: rest =>
      if jsonMatch e then
        (attemptFile (p ++ "/" ++ e.ename) e).2 ++ logsL3 p rest
      else logsL3 p rest

/-- The paths attempted among a list of third-level entries: exactly those
with pathlib suffix `.json`, directories included. -/
def attemptedL3 (p : String) : List L3Entry → List String
  | [] => []
  | e :: rest =>
      if jsonMatch e then (p ++ "/" ++ e.ename) :: attemptedL3 p rest
      else attemptedL3 p rest

/-- Records contributed by second-level entries, assuming no listing
fails. -/
def resultsL2 (p : String) : List L2Entry → List JVal
  | [] => []
  | L2Entry.file _ :: rest => resultsL2 p rest
  | L2Entry.dir _ (.error _) :: _ => []
  | L2Entry.dir nm (.ok fs) :: rest => resultsL3 (p ++ "/" ++ nm) fs ++ resultsL2 p rest

/-- Log lines contributed by second-level entries, assuming no listing
fails. -/
def logsL2 (p : String) : List L2Entry → List LogMsg
  | [] => []
  | L2Entry.file _ :: rest => logsL2 p rest
  | L2Entry.dir _ (.error _) :: _ => []
  | L2Entry.dir nm (.ok fs) :: rest => logsL3 (p ++ "/" ++ nm) fs ++ logsL2 p rest

/-- Paths attempted among second-level entries, assuming no listing
fails. -/
def attemptedL2 (p : String) : List L2Entry → List String
  | [] => []
  | L2Entry.file _ :: rest => attemptedL2 p rest
  | L2Entry.dir _ (.error _) :: _ => []
  | L2Entry.dir nm (.ok fs) :: rest => attemptedL3 (p ++ "/" ++ nm) fs ++ attemptedL2 p rest

/-- Records contributed by first-level entries, assuming no listing
fails. -/
def resultsL1 (p : String) : List L1Entry → List JVal
  | [] => []
  | L1Entry.file _ :: rest => resultsL1 p rest
  | L1Entry.dir _ (.error _) :: _ => []
  | L1Entry.dir nm (.ok models) :: rest => resultsL2 (p ++ "/" ++ nm) models ++ resultsL1 p rest

/-- Log lines contributed by first-level entries, assuming no listing
fails. -/
def logsL1 (p : String) : List L1Entry → List LogMsg
  | [] => []
  | L1Entry.file _ :: rest => logsL1 p rest
  | L1Entry.dir _ (.error _) :: _ => []
  | L1Entry.dir nm (.ok models) :: rest => logsL2 (p ++ "/" ++ nm) models ++ logsL1 p rest

/-- Paths attempted among first-level entries, assuming no listing
fails. -/
def attemptedL1 (p : String) : List L1Entry → List String
  | [] => []
  | L1Entry.file _ :: rest => attemptedL1 p rest
  | L1Entry.dir _ (.error _) :: _ => []
  | L1Entry.dir nm (.ok models) :: rest => attemptedL2 (p ++ "/" ++ nm) models ++ attemptedL1 p rest

/-- A second-level entry whose listing, if it is a directory, succeeds. -/
def l2ok : L2Entry → Bool
  | .file _ => true
  | .dir _ (.ok _) => true
  | .dir _ (.error _) => false

/-- A first-level entry all of whose reachable listings succeed. -/
def l1ok : L1Entry → Bool
  | .file _ => true
  | .dir _ (.ok l2s) => l2s.all l2ok
  | .dir _ (.error _) => false

/-- A third-level entry that is not a regular file with suffix
`.json`. -/
def l3NotJsonFile : L3Entry → Bool
  | .file nm _ => !(pathSuffix nm == ".json")
  | .dir _ => true

/-- A second-level entry below which no regular `.json` file is
reachable. -/
def l2NoJson : L2Entry → Bool
  | .file _ => true
  | .dir _ (.error _) => true
  | .dir _ (.ok fs) => fs.all l3NotJsonFile

/-- A first-level entry below which no regular `.json` file is
reachable. -/
def l1NoJson : L1Entry → Bool
  | .file _ => true
  | .dir _ (.error _) => true
  | .dir _ (.ok l2s) => l2s.all l2NoJson

/-- The root listing contains no regular file with suffix `.json` at the
third level. -/
def noJsonFiles (l1 : List L1Entry) : Bool := l1.all l1NoJson

/-- Result of the upload step: the outcome, the number of remote publish
attempts made, and the log lines emitted. -/
structure PushOut where
  result : Except PyErr Unit
  attempts : Nat
  logs : List LogMsg

/-- Embedding of `push_results_to_hub` (source lines 112-126).  The remote
service is an opaque collaborator modelled as the outcome of each possible
attempt; the code consults attempt 0 exactly once.  `Dataset.from_list` is
external-library behaviour and is modelled as a total conversion.  On
failure the handler logs and re-raises; there is no retry. -/
def push_results_to_hub (_model_results : List JVal) (repo_id : String)
    (hub : Nat → Except String Unit) : PushOut :=
  match hub 0 with
  | .ok _ => ⟨.ok (), 1, [LogMsg.info ("Successfully pushed results to " ++ repo_id)]⟩
  | .error m => ⟨.error (.uploadError m), 1, [LogMsg.error ("Error pushing results to hub: " ++ m)]⟩

/-- Embedding of `display_results` (source lines 129-147): render the
table and its statistics through pandas, an opaque external collaborator
modelled, like the remote hub, as a failable oracle; `rep` is the outcome
of rendering this result set.  The rendering genuinely can fail: for
instance `describe` raises a ValueError when the selected table has no
numeric column, which is in particular the case for an empty result set.
On any failure the handler of lines 146-148 logs and re-raises, so the
error propagates to the caller; the info lines pandas printed before the
failing call are not tracked. -/
def display_results (rep : Except String Unit) : Except PyErr Unit × List LogMsg :=
  match rep with
  | .ok _ =>
      (.ok (), [LogMsg.info "Results Summary:", LogMsg.info "Summary Statistics:"])
  | .error m =>
      (.error (.valueError m), [LogMsg.error ("Error displaying results: " ++ m)])

/-- Python truthiness of the optional `repo_id` argument: `None` and the
empty string are falsy, every other string is truthy. -/
def truthy : Option String → Bool
  | none => false
  | some s => !(s == "")

/-- Observable outcome of one `main` invocation. -/
structure MainOut where
  result : Except PyErr Unit
  uploadCalled : Bool
  logs : List LogMsg

/-- Embedding of `main` (source lines 150-170): walk the directory,
display the results, and only then upload exactly when `if repo_id:` is
truthy; any exception is logged and re-raised.  A failure of the pandas
rendering (`rep` applied to the walked result list) therefore aborts the
run before the upload dispatch is ever reached. -/
def main (results_dir : String) (repo_id : Option String) (fs : RootFs)
    (rep : List JVal → Except String Unit) (hub : Nat → Except String Unit) : MainOut :=
  match get_results_from_dir results_dir fs with
  | .raised e st => ⟨.error e, false, st.logs ++ [LogMsg.error "Error in main execution"]⟩
  | .ok st =>
      match display_results (rep st.results) with
      | (.error e, dlogs) =>
          ⟨.error e, false, st.logs ++ dlogs ++ [LogMsg.error "Error in main execution"]⟩
      | (.ok _, dlogs) =>
          if truthy repo_id then
            match push_results_to_hub st.results (Option.getD repo_id "") hub with
            | ⟨.ok _, _, plogs⟩ => ⟨.ok (), true, st.logs ++ dlogs ++ plogs⟩
            | ⟨.error e, _, plogs⟩ =>
                ⟨.error e, true,
                 st.logs ++ dlogs ++ plogs ++ [LogMsg.error "Error in main execution"]⟩
          else ⟨.ok (), false, st.logs ++ dlogs⟩

/-! Concrete fixtures used by the witness and counterexample theorems.
Each fixture is used by the theorems of a single claim. -/

/-- Configuration section of the C1 witness input. -/
def cfgC1 : Dict := [("model_name", JVal.str "modelX"), ("num_fewshot", JVal.num 5)]

/-- Score section of the C1 witness input. -/
def allC1 : Dict := [("task1", JVal.num 1), ("task2", JVal.str "n/a")]

/-- Top-level object of the C1 witness input. -/
def topC1 : Dict :=
  [("config_general", JVal.obj cfgC1), ("results", JVal.obj [("all", JVal.obj allC1)])]

/-- Configuration section of the C8 witness input; the key `task1`
collides with a score key. -/
def cfgC8 : Dict := [("model_name", JVal.str "modelY"), ("task1", JVal.num 0)]

/-- Score section of the C8 witness input. -/
def allC8 : Dict := [("task1", JVal.num 1)]

/-- Top-level object of the C8 witness input. -/
def topC8 : Dict :=
  [("config_general", JVal.obj cfgC8), ("results", JVal.obj [("all", JVal.obj allC8)])]

/-- Configuration section of the C9 witness input. -/
def cfgC9 : Dict := [("model_name", JVal.str "modelZ")]

/-- Score section of the C9 witness input. -/
def allC9 : Dict := [("taskA", JVal.num 3)]

/-- Top-level object of the C9 witness input. -/
def topC9 : Dict :=
  [("config_general", JVal.obj cfgC9), ("results", JVal.obj [("all", JVal.obj allC9)])]

/-- A well-formed parsed result file used inside the C2 counterexample
tree. -/
def jC2 : JVal :=
  JVal.obj [("config_general", JVal.obj [("model_name", JVal.str "modelB")]),
            ("results", JVal.obj [("all", JVal.obj [("task1", JVal.num 1)])])]

/-- C2 counterexample tree: the first author directory fails to list,
the second holds a perfectly valid result file. -/
def fsC2 : RootFs :=
  RootFs.dir (.ok
    [L1Entry.dir "authorA" (.error "PermissionError"),
     L1Entry.dir "authorB" (.ok [L2Entry.dir "modelB" (.ok
        [L3Entry.file "good.json" (.ok jC2)])])])

/-- Root listing used by the C2 witness: a single author directory whose
listing fails. -/
def l1C2w : List L1Entry := [L1Entry.dir "authorW" (.error "denied")]

/-- The C2 counterexample tree with the unreadable author directory
removed: the part of the tree the aborted walk never reached. -/
def fsC2good : RootFs :=
  RootFs.dir (.ok
    [L1Entry.dir "authorB" (.ok [L2Entry.dir "modelB" (.ok
        [L3Entry.file "good.json" (.ok jC2)])])])

/-- A well-formed parsed result file used inside the C3 counterexample
tree. -/
def jC3 : JVal :=
  JVal.obj [("config_general", JVal.obj [("model_name", JVal.str "modelC")]),
            ("results", JVal.obj [("all", JVal.obj [("task1", JVal.num 1)])])]

/-- C3 counterexample tree: the only third-level entry is a regular file
named exactly `.json`, whose content is well formed. -/
def fsC3 : RootFs :=
  RootFs.dir (.ok
    [L1Entry.dir "authorC" (.ok [L2Entry.dir "modelC" (.ok
        [L3Entry.file ".json" (.ok jC3)])])])

/-- Root listing used by the C3 witness: a mix of matching files, a
matching directory, a non-matching file and a dot file. -/
def l1C3w : List L1Entry :=
  [L1Entry.dir "a" (.ok [L2Entry.dir "m" (.ok
      [L3Entry.file "run.json" .badJson,
       L3Entry.file "notes.txt" .badJson,
       L3Entry.dir "d.json",
       L3Entry.file ".json" .badJson])])]

/-- Root listing used by the C7 witness: an existing tree with no
`.json` file anywhere. -/
def l1C7w : List L1Entry :=
  [L1Entry.dir "a" (.ok [L2Entry.dir "m" (.ok
      [L3Entry.file "notes.txt" (.ok JVal.null)])]),
   L1Entry.file "stray.json"]

/-- A well-formed parsed result file used by the C10 witness. -/
def jC10 : JVal :=
  JVal.obj [("config_general", JVal.obj [("model_name", JVal.str "modelT")]),
            ("results", JVal.obj [("all", JVal.obj [("task1", JVal.num 2)])])]

/-- Root listing used by the C10 witness: one valid file followed by an
invalid one in the same model directory. -/
def l1C10w : List L1Entry :=
  [L1Entry.dir "a" (.ok [L2Entry.dir "m" (.ok
      [L3Entry.file "good.json" (.ok jC10),
       L3Entry.file "bad.json" .badJson])])]

/-- A well-formed parsed result file used by the C5 witness. -/
def jC5 : JVal :=
  JVal.obj [("config_general", JVal.obj [("model_name", JVal.str "modelV")]),
            ("results", JVal.obj [("all", JVal.obj [("task1", JVal.num 1)])])]

/-- C5 witness tree: one valid result file, so the rendered table has a
numeric column and a succeeding pandas rendering is the realistic
outcome. -/
def fsC5 : RootFs :=
  RootFs.dir (.ok [L1Entry.dir "a" (.ok [L2Entry.dir "m" (.ok
      [L3Entry.file "run.json" (.ok jC5)])])])

/-- A well-formed parsed result file used by the C6 witness. -/
def jC6 : JVal :=
  JVal.obj [("config_general", JVal.obj [("model_name", JVal.str "modelU")]),
            ("results", JVal.obj [("all", JVal.obj [("task1", JVal.num 1)])])]

/-- C6 witness tree: one valid result file with a numeric score, so the
report stage succeeds and the run reaches the failing upload. -/
def fsC6 : RootFs :=
  RootFs.dir (.ok [L1Entry.dir "b" (.ok [L2Entry.dir "n" (.ok
      [L3Entry.file "run.json" (.ok jC6)])])])

/-! Lemmas about dict lookup and assignment. -/

theorem getKey_setKey_self (d : Dict) (q : String) (x : JVal) :
    getKey (setKey d q x) q = some x := by
  induction d with
  | nil => simp [setKey, getKey]
  | cons kv rest ih =>
      obtain ⟨k, v⟩ := kv
      by_cases h : k = q
      · simp [setKey, h, getKey]
      · simp [setKey, h, getKey, ih]

theorem getKey_setKey_ne (d : Dict) (q' q : String) (x : JVal) (h : q' ≠ q) :
    getKey (setKey d q' x) q = getKey d q := by
  induction d with
  | nil => simp [setKey, getKey, h]
  | cons kv rest ih =>
      obtain ⟨k, v⟩ := kv
      by_cases hk : k = q'
      · subst hk
        simp [setKey, getKey, h]
      · simp [setKey, hk, getKey, ih]

theorem mem_keysOf_setKey (d : Dict) (q m : String) (x : JVal) :
    m ∈ keysOf (setKey d q x) ↔ m ∈ keysOf d ∨ m = q := by
  induction d with
  | nil => simp [setKey, keysOf]
  | cons kv rest ih =>
      obtain ⟨k, v⟩ := kv
      by_cases h : k = q
      · subst h
        simp [setKey, keysOf]
        tauto
      · simp [setKey, h, keysOf] at ih ⊢
        tauto

theorem getKey_mem_of_some (d : Dict) (m : String) (v : JVal)
    (h : getKey d m = some v) : (m, v) ∈ d := by
  induction d with
  | nil => simp [getKey] at h
  | cons kv rest ih =>
      obtain ⟨k, w⟩ := kv
      by_cases hk : k = m
      · subst hk
        simp [getKey] at h
        simp [h]
      · simp [getKey, hk] at h
        simp [ih h]

theorem exists_getKey_of_mem_keysOf (d : Dict) (m : String)
    (h : m ∈ keysOf d) : ∃ v, getKey d m = some v := by
  induction d with
  | nil => simp [keysOf] at h
  | cons kv rest ih =>
      obtain ⟨k, w⟩ := kv
      by_cases hk : k = m
      · exact ⟨w, by simp [getKey, hk]⟩
      · simp [keysOf, hk] at h
        rcases h with h | h
        · exact absurd h.symm hk
        · rcases ih (by simpa [keysOf] using h) with ⟨v, hv⟩
          exact ⟨v, by simp [getKey, hk, hv]⟩

/-! Lemmas about the merge loop of the extractor. -/

theorem foldSetItems_obj (items base : Dict) :
    foldSetItems items (JVal.obj base) = .ok (JVal.obj (mergeAll items base)) := by
  induction items generalizing base with
  | nil => simp [foldSetItems, mergeAll]
  | cons kv rest ih =>
      obtain ⟨k, v⟩ := kv
      simp [foldSetItems, pySetItem, mergeAll, ih]

theorem mem_keysOf_mergeAll_left (items base : Dict) (m : String)
    (h : m ∈ keysOf base) : m ∈ keysOf (mergeAll items base) := by
  induction items generalizing base with
  | nil => simpa [mergeAll] using h
  | cons kv rest ih =>
      obtain ⟨k, v⟩ := kv
      exact ih (setKey base k v) ((mem_keysOf_setKey base k m v).mpr (Or.inl h))

theorem mem_keysOf_mergeAll_right (items base : Dict) (m : String)
    (h : m ∈ keysOf items) : m ∈ keysOf (mergeAll items base) := by
  induction items generalizing base with
  | nil => simp [keysOf] at h
  | cons kv rest ih =>
      obtain ⟨k, v⟩ := kv
      by_cases hk : m = k
      · subst hk
        exact mem_keysOf_mergeAll_left rest (setKey base m v) m
          ((mem_keysOf_setKey base m m v).mpr (Or.inr rfl))
      · simp [keysOf, hk] at h
        exact ih (setKey base k v) (by simpa [keysOf] using h)

theorem getKey_mergeAll_not_mem (items base : Dict) (m : String)
    (h : m ∉ keysOf items) : getKey (mergeAll items base) m = getKey base m := by
  induction items generalizing base with
  | nil => simp [mergeAll]
  | cons kv rest ih =>
      obtain ⟨k, v⟩ := kv
      simp [keysOf] at h
      push_neg at h
      rw [mergeAll, ih (setKey base k v) (by simpa [keysOf] using h.2),
        getKey_setKey_ne base k m v (fun hk => h.1 hk.symm)]

theorem getKey_mergeAll_nodup (items base : Dict) (m : String) (v : JVal)
    (hnd : (keysOf items).Nodup) (h : (m, v) ∈ items) :
    getKey (mergeAll items base) m = some v := by
  induction items generalizing base with
  | nil => simp at h
  | cons kv rest ih =>
      obtain ⟨k, w⟩ := kv
      simp [keysOf] at hnd
      rcases List.mem_cons.mp h with h | h
      · obtain ⟨hk, hw⟩ := Prod.mk.injEq .. ▸ h
        subst hk
        subst hw
        rw [mergeAll, getKey_mergeAll_not_mem rest (setKey base m v) m
            (by simpa [keysOf] using hnd.1), getKey_setKey_self]
      · exact ih (setKey base k w) hnd.2 h

/-- Evaluation of the extractor on a well-formed input: the returned
record is the configuration dict with every score pair inserted, and the
post-state of the input holds that record under `config_general`. -/
theorem extract_results_eq (top base resF allF : Dict)
    (h1 : getKey top "config_general" = some (JVal.obj base))
    (h2 : getKey top "results" = some (JVal.obj resF))
    (h3 : getKey resF "all" = some (JVal.obj allF)) :
    extract_results (JVal.obj top) =
      .ok (JVal.obj (mergeAll allF base),
           JVal.obj (setKey top "config_general" (JVal.obj (mergeAll allF base)))) := by
  simp [extract_results, pySubscr, h1, h2, h3, pyItems, foldSetItems_obj, pySetItem]

/-- C1: for every well-formed input (a JSON object holding a
`config_general` object and a `results.all` object, the latter with the
distinct keys a parsed dict always has), the extractor succeeds and the
returned record contains every key of `config_general`, contains every key
of `results.all`, and maps each key of `results.all` to exactly the value
stored there, unchanged. -/
theorem claim_C1 (top base resF allF : Dict)
    (h1 : getKey top "config_general" = some (JVal.obj base))
    (h2 : getKey top "results" = some (JVal.obj resF))
    (h3 : getKey resF "all" = some (JVal.obj allF))
    (hnd : (keysOf allF).Nodup) :
    ∃ merged post, extract_results (JVal.obj top) = .ok (JVal.obj merged, post)
      ∧ (∀ m, m ∈ keysOf base → m ∈ keysOf merged)
      ∧ (∀ m, m ∈ keysOf allF → m ∈ keysOf merged)
      ∧ (∀ m v, getKey allF m = some v → getKey merged m = some v) := by
  refine ⟨mergeAll allF base, _, extract_results_eq top base resF allF h1 h2 h3,
    fun m hm => mem_keysOf_mergeAll_left allF base m hm,
    fun m hm => mem_keysOf_mergeAll_right allF base m hm,
    fun m v hv => getKey_mergeAll_nodup allF base m v hnd (getKey_mem_of_some allF m v hv)⟩

/-- Witness for C1 at a concrete two-field configuration and two scores. -/
theorem claim_C1_witness :
    (keysOf allC1).Nodup ∧
    (∃ merged post, extract_results (JVal.obj topC1) = .ok (JVal.obj merged, post)
      ∧ (∀ m, m ∈ keysOf cfgC1 → m ∈ keysOf merged)
      ∧ (∀ m, m ∈ keysOf allC1 → m ∈ keysOf merged)
      ∧ (∀ m v, getKey allC1 m = some v → getKey merged m = some v)) :=
  ⟨by decide,
   claim_C1 topC1 cfgC1 [("all", JVal.obj allC1)] allC1 rfl rfl rfl (by decide)⟩

/-- C8: when a key of `results.all` already occurs in `config_general`,
the merge is in place and the score value overwrites the configuration
value: the record maps that key to the `results.all` value. -/
theorem claim_C8 (top base resF allF : Dict) (m : String) (v : JVal)
    (h1 : getKey top "config_general" = some (JVal.obj base))
    (h2 : getKey top "results" = some (JVal.obj resF))
    (h3 : getKey resF "all" = some (JVal.obj allF))
    (hnd : (keysOf allF).Nodup)
    (hbase : m ∈ keysOf base)
    (hall : getKey allF m = some v) :
    ∃ merged post, extract_results (JVal.obj top) = .ok (JVal.obj merged, post)
      ∧ getKey merged m = some v := by
  refine ⟨mergeAll allF base, _, extract_results_eq top base resF allF h1 h2 h3,
    getKey_mergeAll_nodup allF base m v hnd (getKey_mem_of_some allF m v hall)⟩

/-- Witness for C8: the key `task1` holds value 0 in the configuration
and value 1 in the scores; the record ends up with 1. -/
theorem claim_C8_witness :
    (keysOf allC8).Nodup ∧ "task1" ∈ keysOf cfgC8 ∧
    getKey allC8 "task1" = some (JVal.num 1) ∧
    (∃ merged post, extract_results (JVal.obj topC8) = .ok (JVal.obj merged, post)
      ∧ getKey merged "task1" = some (JVal.num 1)) :=
  ⟨by decide, by simp [keysOf, cfgC8], rfl,
   claim_C8 topC8 cfgC8 [("all", JVal.obj allC8)] allC8 "task1" (JVal.num 1)
     rfl rfl rfl (by decide) (by simp [keysOf, cfgC8]) rfl⟩

/-- C9: the extractor returns the very object stored under
`config_general` and mutates the caller input in place.  Object identity
is modelled by the explicit post-state the embedding returns: the
post-call input holds the returned record itself under `config_general`,
so every inserted score key is visible through the input. -/
theorem claim_C9 (top base resF allF : Dict)
    (h1 : getKey top "config_general" = some (JVal.obj base))
    (h2 : getKey top "results" = some (JVal.obj resF))
    (h3 : getKey resF "all" = some (JVal.obj allF)) :
    ∃ merged, extract_results (JVal.obj top) =
        .ok (JVal.obj merged, JVal.obj (setKey top "config_general" (JVal.obj merged)))
      ∧ getKey (setKey top "config_general" (JVal.obj merged)) "config_general"
          = some (JVal.obj merged)
      ∧ (∀ m, m ∈ keysOf allF → m ∈ keysOf merged) := by
  refine ⟨mergeAll allF base, extract_results_eq top base resF allF h1 h2 h3,
    getKey_setKey_self top "config_general" _,
    fun m hm => mem_keysOf_mergeAll_right allF base m hm⟩

/-- Witness for C9 at a concrete input. -/
theorem claim_C9_witness :
    ∃ merged, extract_results (JVal.obj topC9) =
        .ok (JVal.obj merged, JVal.obj (setKey topC9 "config_general" (JVal.obj merged)))
      ∧ getKey (setKey topC9 "config_general" (JVal.obj merged)) "config_general"
          = some (JVal.obj merged)
      ∧ (∀ m, m ∈ keysOf allC9 → m ∈ keysOf merged) :=
  claim_C9 topC9 cfgC9 [("all", JVal.obj allC9)] allC9 rfl rfl rfl

/-! Characterization of the directory walk. -/

theorem all_split {α : Type} (f : α → Bool) (e : α) (rest : List α)
    (h : (e :: rest).all f = true) : f e = true ∧ rest.all f = true := by
  rw [List.all_cons, Bool.and_eq_true] at h
  exact h

theorem walkFiles_spec (p : String) (es : List L3Entry) :
    ∀ st : WalkSt, walkFiles p st es =
      ⟨st.results ++ resultsL3 p es, st.logs ++ logsL3 p es,
       st.attempted ++ attemptedL3 p es⟩ := by
  induction es with
  | nil => intro st; simp [walkFiles, resultsL3, logsL3, attemptedL3]
  | cons e rest ih =>
      intro st
      cases h : jsonMatch e with
      | false => simp [walkFiles, h, resultsL3, logsL3, attemptedL3, ih]
      | true =>
          simp [walkFiles, h, resultsL3, logsL3, attemptedL3, ih, stepFile,
            List.append_assoc]

theorem walkModels_spec (p : String) (es : List L2Entry) :
    ∀ st : WalkSt, es.all l2ok = true → walkModels p st es =
      .ok ⟨st.results ++ resultsL2 p es, st.logs ++ logsL2 p es,
           st.attempted ++ attemptedL2 p es⟩ := by
  induction es with
  | nil => intro st _; simp [walkModels, resultsL2, logsL2, attemptedL2]
  | cons e rest ih =>
      intro st hok
      obtain ⟨h1, h2⟩ := all_split l2ok e rest hok
      cases e with
      | file nm =>
          simp [walkModels, resultsL2, logsL2, attemptedL2, ih st h2]
      | dir nm listing =>
          cases listing with
          | error m => simp [l2ok] at h1
          | ok fs =>
              simp [walkModels, resultsL2, logsL2, attemptedL2,
                walkFiles_spec (p ++ "/" ++ nm) fs st, ih _ h2, List.append_assoc]

theorem walkAuthors_spec (p : String) (es : List L1Entry) :
    ∀ st : WalkSt, es.all l1ok = true → walkAuthors p st es =
      .ok ⟨st.results ++ resultsL1 p es, st.logs ++ logsL1 p es,
           st.attempted ++ attemptedL1 p es⟩ := by
  induction es with
  | nil => intro st _; simp [walkAuthors, resultsL1, logsL1, attemptedL1]
  | cons e rest ih =>
      intro st hok
      obtain ⟨h1, h2⟩ := all_split l1ok e rest hok
      cases e with
      | file nm =>
          simp [walkAuthors, resultsL1, logsL1, attemptedL1, ih st h2]
      | dir nm listing =>
          cases listing with
          | error m => simp [l1ok] at h1
          | ok models =>
              have hmods : models.all l2ok = true := by simpa [l1ok] using h1
              simp [walkAuthors, resultsL1, logsL1, attemptedL1,
                walkModels_spec (p ++ "/" ++ nm) models st hmods, ih _ h2,
                List.append_assoc]

/-- Full evaluation of `get_results_from_dir` on a readable tree. -/
theorem get_results_spec (p : String) (l1 : List L1Entry) (h : l1.all l1ok = true) :
    get_results_from_dir p (.dir (.ok l1)) =
      (if (resultsL1 p l1).isEmpty then
        WRes.ok ⟨resultsL1 p l1, logsL1 p l1 ++ [noResultsWarning], attemptedL1 p l1⟩
       else WRes.ok ⟨resultsL1 p l1, logsL1 p l1, attemptedL1 p l1⟩) := by
  have hw := walkAuthors_spec p l1 emptySt h
  simp only [emptySt] at hw
  simp [get_results_from_dir, emptySt, hw]

theorem walkModels_ok_iff (p : String) (es : List L2Entry) :
    ∀ st : WalkSt, (∃ st2, walkModels p st es = .ok st2) ↔ es.all l2ok = true := by
  induction es with
  | nil => intro st; simp [walkModels]
  | cons e rest ih =>
      intro st
      cases e with
      | file nm => simpa [walkModels, l2ok] using ih st
      | dir nm listing =>
          cases listing with
          | error m => simp [walkModels, l2ok]
          | ok fs => simpa [walkModels, l2ok] using ih (walkFiles (p ++ "/" ++ nm) st fs)

theorem walkModels_raised_osError (p : String) (es : List L2Entry) :
    ∀ (st : WalkSt) (e : PyErr) (st2 : WalkSt),
      walkModels p st es = .raised e st2 → ∃ m, e = .osError m := by
  induction es with
  | nil => intro st e st2 h; simp [walkModels] at h
  | cons hd rest ih =>
      intro st e st2 h
      cases hd with
      | file nm => exact ih st e st2 (by simpa [walkModels] using h)
      | dir nm listing =>
          cases listing with
          | error m =>
              simp [walkModels] at h
              exact ⟨m, h.1.symm⟩
          | ok fs =>
              exact ih (walkFiles (p ++ "/" ++ nm) st fs) e st2
                (by simpa [walkModels] using h)

theorem walkAuthors_ok_iff (p : String) (es : List L1Entry) :
    ∀ st : WalkSt, (∃ st2, walkAuthors p st es = .ok st2) ↔ es.all l1ok = true := by
  induction es with
  | nil => intro st; simp [walkAuthors]
  | cons e rest ih =>
      intro st
      cases e with
      | file nm => simpa [walkAuthors, l1ok] using ih st
      | dir nm listing =>
          cases listing with
          | error m => simp [walkAuthors, l1ok]
          | ok models =>
              cases hm : walkModels (p ++ "/" ++ nm) st models with
              | ok st2 =>
                  have hmo : models.all l2ok = true :=
                    (walkModels_ok_iff (p ++ "/" ++ nm) models st).mp ⟨st2, hm⟩
                  simpa [walkAuthors, hm, l1ok, hmo] using ih st2
              | raised e2 st2 =>
                  have hmo : models.all l2ok ≠ true := by
                    intro hh
                    rcases (walkModels_ok_iff (p ++ "/" ++ nm) models st).mpr hh with
                      ⟨s, hs⟩
                    rw [hm] at hs
                    cases hs
                  simp [walkAuthors, hm, l1ok, hmo]

theorem walkAuthors_raised_osError (p : String) (es : List L1Entry) :
    ∀ (st : WalkSt) (e : PyErr) (st2 : WalkSt),
      walkAuthors p st es = .raised e st2 → ∃ m, e = .osError m := by
  induction es with
  | nil => intro st e st2 h; simp [walkAuthors] at h
  | cons hd rest ih =>
      intro st e st2 h
      cases hd with
      | file nm => exact ih st e st2 (by simpa [walkAuthors] using h)
      | dir nm listing =>
          cases listing with
          | error m =>
              simp [walkAuthors] at h
              exact ⟨m, h.1.symm⟩
          | ok models =>
              cases hm : walkModels (p ++ "/" ++ nm) st models with
              | ok st3 =>
                  rw [walkAuthors, hm] at h
                  exact ih st3 e st2 h
              | raised e2 st3 =>
                  have hcomp : walkAuthors p st (L1Entry.dir nm (.ok models) :: rest)
                      = .raised e2 st3 := by simp [walkAuthors, hm]
                  rw [hcomp] at h
                  injection h with h1 h2
                  subst h1
                  exact walkModels_raised_osError (p ++ "/" ++ nm) models st _ _ hm

/-! Lemmas for the empty-directory claim. -/

theorem resultsL3_eq_nil (p : String) (es : List L3Entry)
    (h : es.all l3NotJsonFile = true) : resultsL3 p es = [] := by
  induction es with
  | nil => simp [resultsL3]
  | cons e rest ih =>
      obtain ⟨h1, h2⟩ := all_split l3NotJsonFile e rest h
      cases e with
      | file nm r =>
          have : jsonMatch (L3Entry.file nm r) = false := by
            simpa [l3NotJsonFile, jsonMatch, L3Entry.ename] using h1
          simp [resultsL3, this, ih h2]
      | dir nm =>
          cases hj : jsonMatch (L3Entry.dir nm) with
          | false => simp [resultsL3, hj, ih h2]
          | true =>
              simp [resultsL3, hj, ih h2, attemptFile, process_result_file]

theorem resultsL2_eq_nil (p : String) (es : List L2Entry)
    (h : es.all l2NoJson = true) : resultsL2 p es = [] := by
  induction es with
  | nil => simp [resultsL2]
  | cons e rest ih =>
      obtain ⟨h1, h2⟩ := all_split l2NoJson e rest h
      cases e with
      | file nm => simp [resultsL2, ih h2]
      | dir nm listing =>
          cases listing with
          | error m => simp [resultsL2]
          | ok fs =>
              have : fs.all l3NotJsonFile = true := by simpa [l2NoJson] using h1
              simp [resultsL2, resultsL3_eq_nil _ fs this, ih h2]

theorem resultsL1_eq_nil (p : String) (es : List L1Entry)
    (h : noJsonFiles es = true) : resultsL1 p es = [] := by
  induction es with
  | nil => simp [resultsL1]
  | cons e rest ih =>
      obtain ⟨h1, h2⟩ := all_split l1NoJson e rest h
      cases e with
      | file nm => simp [resultsL1, ih h2]
      | dir nm listing =>
          cases listing with
          | error m => simp [resultsL1]
          | ok models =>
              have : models.all l2NoJson = true := by simpa [l1NoJson] using h1
              simp [resultsL1, resultsL2_eq_nil _ models this, ih h2]

/-- Definitional reduction of the walker entry point on an existing root
directory. -/
theorem get_results_dir_ok (p : String) (l1 : List L1Entry) :
    get_results_from_dir p (.dir (.ok l1)) =
      (match walkAuthors p emptySt l1 with
       | WRes.ok st =>
           if st.results.isEmpty = true then
             WRes.ok { st with logs := st.logs ++ [noResultsWarning] }
           else WRes.ok st
       | WRes.raised e st =>
           WRes.raised e { st with logs := st.logs ++ [dirErrorLog] }) := rfl

/-- Any exception propagated out of the walker on an existing root is an
operating-system error from a listing, never the not-found error of the
existence check. -/
theorem get_results_not_fnf (p : String) (fs : RootFs) (hne : fs ≠ RootFs.missing)
    (e : PyErr) (st : WalkSt) (h : get_results_from_dir p fs = .raised e st) :
    ∃ m, e = .osError m := by
  cases fs with
  | missing => exact absurd rfl hne
  | file =>
      have h2 : WRes.raised (PyErr.osError "NotADirectoryError")
          { emptySt with logs := [dirErrorLog] } = WRes.raised e st := h
      injection h2 with a b
      exact ⟨_, a.symm⟩
  | dir listing =>
      cases listing with
      | error m =>
          have h2 : WRes.raised (PyErr.osError m)
              { emptySt with logs := [dirErrorLog] } = WRes.raised e st := h
          injection h2 with a b
          exact ⟨m, a.symm⟩
      | ok l1 =>
          rw [get_results_dir_ok] at h
          cases hw : walkAuthors p emptySt l1 with
          | ok st2 =>
              rw [hw] at h
              have h3 : (if st2.results.isEmpty = true then
                  WRes.ok { st2 with logs := st2.logs ++ [noResultsWarning] }
                else WRes.ok st2) = WRes.raised e st := h
              split at h3 <;> simp at h3
          | raised e2 st2 =>
              rw [hw] at h
              simp at h
              obtain ⟨m, hm⟩ := walkAuthors_raised_osError p l1 emptySt e2 st2 hw
              exact ⟨m, by rw [← h.1, hm]⟩

/-! The claims about the directory walk. -/

/-- C2 counterexample: in a tree whose first author directory cannot be
listed while the second holds a perfectly valid result file, the walk
aborts with the propagated listing error, no file is ever attempted and no
record is produced; the same tree without the unreadable directory yields
the record.  This refutes the claim that a read error raised while listing
a subdirectory is skipped and traversal continues. -/
theorem claim_C2_cex :
    get_results_from_dir "results" fsC2 =
      WRes.raised (PyErr.osError "PermissionError")
        ⟨[], [dirErrorLog], []⟩ ∧
    get_results_from_dir "results" fsC2good =
      WRes.ok ⟨[JVal.obj [("model_name", JVal.str "modelB"), ("task1", JVal.num 1)]],
               [], ["results/authorB/modelB/good.json"]⟩ :=
  ⟨rfl, rfl⟩

/-- C2 (amended): per-file errors are logged and the file is skipped with
traversal continuing, so on a tree whose directory listings all succeed
the walk returns normally whatever the per-file outcomes; by contrast a
read error raised while listing a subdirectory is logged and re-raised,
aborting the whole walk. -/
theorem claim_C2 : ∀ (p : String) (l1 : List L1Entry),
    ((∃ st, get_results_from_dir p (.dir (.ok l1)) = .ok st) ↔ l1.all l1ok = true) ∧
    (l1.all l1ok = false →
      ∃ m st, get_results_from_dir p (.dir (.ok l1)) = .raised (.osError m) st ∧
        dirErrorLog ∈ st.logs) := by
  intro p l1
  constructor
  · constructor
    · rintro ⟨st, hst⟩
      rw [get_results_dir_ok] at hst
      cases hw : walkAuthors p emptySt l1 with
      | ok st2 => exact (walkAuthors_ok_iff p l1 emptySt).mp ⟨st2, hw⟩
      | raised e st2 =>
          rw [hw] at hst
          simp at hst
    · intro hall
      by_cases he : (resultsL1 p l1).isEmpty = true
      · exact ⟨_, by rw [get_results_spec p l1 hall, if_pos he]⟩
      · exact ⟨_, by rw [get_results_spec p l1 hall, if_neg he]⟩
  · intro hfalse
    cases hw : walkAuthors p emptySt l1 with
    | ok st2 =>
        have hall := (walkAuthors_ok_iff p l1 emptySt).mp ⟨st2, hw⟩
        rw [hall] at hfalse
        simp at hfalse
    | raised e st2 =>
        obtain ⟨m, rfl⟩ := walkAuthors_raised_osError p l1 emptySt e st2 hw
        exact ⟨m, { st2 with logs := st2.logs ++ [dirErrorLog] },
          by rw [get_results_dir_ok, hw], by simp⟩

/-- Witness for C2 at a concrete unreadable author directory. -/
theorem claim_C2_witness :
    l1C2w.all l1ok = false ∧
    (∃ m st, get_results_from_dir "results" (.dir (.ok l1C2w)) =
        .raised (.osError m) st ∧ dirErrorLog ∈ st.logs) :=
  ⟨by decide, (claim_C2 "results" l1C2w).2 (by decide)⟩

/-- C3 counterexample: a regular third-level file named exactly `.json`
has a name that ends in `.json`, yet its pathlib suffix is empty, so the
walker skips it silently: nothing is attempted, no record and no error is
produced.  This refutes the claim that every entry two levels below the
root whose name ends in `.json` is processed. -/
theorem claim_C3_cex :
    List.isSuffixOf ".json".toList ".json".toList = true ∧
    pathSuffix ".json" = "" ∧
    get_results_from_dir "results" fsC3 =
      WRes.ok ⟨[], [noResultsWarning], []⟩ :=
  ⟨by decide, rfl, rfl⟩

/-- C3 (amended): on a readable tree the walker passes to
`process_result_file` exactly the third-level entries, directories
included, whose pathlib suffix equals `.json` (a dot later than the first
character introducing a final `.json`); a name such as `.json`, whose only
dot starts it, has empty suffix and is skipped silently, and every other
non-matching entry at any level is skipped silently as well. -/
theorem claim_C3 : ∀ (p : String) (l1 : List L1Entry), l1.all l1ok = true →
    ∃ st, get_results_from_dir p (.dir (.ok l1)) = .ok st ∧
      st.attempted = attemptedL1 p l1 := by
  intro p l1 h
  by_cases he : (resultsL1 p l1).isEmpty = true
  · exact ⟨_, by rw [get_results_spec p l1 h, if_pos he], rfl⟩
  · exact ⟨_, by rw [get_results_spec p l1 h, if_neg he], rfl⟩

/-- Witness for C3 on a tree holding a matching file, a matching
directory, a non-matching file and a dot file: exactly the two entries
with suffix `.json` are attempted, in order. -/
theorem claim_C3_witness :
    l1C3w.all l1ok = true ∧
    (∃ st, get_results_from_dir "results" (.dir (.ok l1C3w)) = .ok st ∧
      st.attempted = attemptedL1 "results" l1C3w) ∧
    attemptedL1 "results" l1C3w = ["results/a/m/run.json", "results/a/m/d.json"] :=
  ⟨by decide, claim_C3 "results" l1C3w (by decide), rfl⟩

/-- C4: a missing root raises the not-found error with nothing attempted,
nothing recorded and nothing logged (the walker state is still empty);
when the root exists in any form, no not-found error is ever raised by the
walker. -/
theorem claim_C4 : ∀ (p : String) (fs : RootFs),
    (fs = RootFs.missing →
      get_results_from_dir p fs = .raised (.fileNotFoundError p) emptySt) ∧
    (fs ≠ RootFs.missing →
      ∀ e st, get_results_from_dir p fs = .raised e st →
        ∀ q, e ≠ PyErr.fileNotFoundError q) := by
  intro p fs
  refine ⟨fun hm => by subst hm; rfl, fun hne e st h q => ?_⟩
  obtain ⟨m, rfl⟩ := get_results_not_fnf p fs hne e st h
  simp

/-- Witness for C4: a missing root and an unreadable existing root. -/
theorem claim_C4_witness :
    get_results_from_dir "results" RootFs.missing =
      .raised (.fileNotFoundError "results") emptySt ∧
    PyErr.osError "boom" ≠ PyErr.fileNotFoundError "results" :=
  ⟨(claim_C4 "results" RootFs.missing).1 rfl,
   (claim_C4 "results" (RootFs.dir (.error "boom"))).2 (by simp)
     (PyErr.osError "boom") ⟨[], [dirErrorLog], []⟩ rfl "results"⟩

/-- C7: on an existing readable tree containing no regular `.json` file
at the third level, the walk returns normally with an empty record list
and the no-results warning among its logs. -/
theorem claim_C7 : ∀ (p : String) (l1 : List L1Entry),
    l1.all l1ok = true → noJsonFiles l1 = true →
    ∃ st, get_results_from_dir p (.dir (.ok l1)) = .ok st ∧ st.results = [] ∧
      noResultsWarning ∈ st.logs := by
  intro p l1 hok hnone
  have hnil : resultsL1 p l1 = [] := resultsL1_eq_nil p l1 hnone
  refine ⟨⟨resultsL1 p l1, logsL1 p l1 ++ [noResultsWarning], attemptedL1 p l1⟩,
    ?_, hnil, by simp⟩
  rw [get_results_spec p l1 hok, if_pos (by simp [hnil])]

/-- Witness for C7 on a tree with one text file and a stray top-level
file. -/
theorem claim_C7_witness :
    l1C7w.all l1ok = true ∧ noJsonFiles l1C7w = true ∧
    (∃ st, get_results_from_dir "results" (.dir (.ok l1C7w)) = .ok st ∧
      st.results = [] ∧ noResultsWarning ∈ st.logs) :=
  ⟨by decide, by decide, claim_C7 "results" l1C7w (by decide) (by decide)⟩

/-- C10: a file whose processing fails contributes no entry and leaves
the accumulated list untouched (the inner loop only ever appends the
records of successful attempts to the state it is given), and on a
readable tree the final record list is exactly the successful records in
traversal order, as computed by `resultsL3` within `resultsL1`: one
record per successfully processed file, nothing for the failures. -/
theorem claim_C10 : ∀ (p : String) (l1 : List L1Entry) (st : WalkSt)
    (es : List L3Entry),
    ((walkFiles p st es).results = st.results ++ resultsL3 p es) ∧
    (l1.all l1ok = true →
      ∃ st2, get_results_from_dir p (.dir (.ok l1)) = .ok st2 ∧
        st2.results = resultsL1 p l1) := by
  intro p l1 st es
  refine ⟨by rw [walkFiles_spec p es st], fun h => ?_⟩
  by_cases he : (resultsL1 p l1).isEmpty = true
  · exact ⟨_, by rw [get_results_spec p l1 h, if_pos he], rfl⟩
  · exact ⟨_, by rw [get_results_spec p l1 h, if_neg he], rfl⟩

/-- Witness for C10 on a model directory holding one valid and one
invalid file: the final list holds exactly the one record of the valid
file. -/
theorem claim_C10_witness :
    l1C10w.all l1ok = true ∧
    (∃ st2, get_results_from_dir "results" (.dir (.ok l1C10w)) = .ok st2 ∧
      st2.results = resultsL1 "results" l1C10w) ∧
    resultsL1 "results" l1C10w =
      [JVal.obj [("model_name", JVal.str "modelT"), ("task1", JVal.num 2)]] :=
  ⟨by decide, (claim_C10 "results" l1C10w emptySt []).2 (by decide), rfl⟩

/-! The claims about the upload step. -/

/-- Definitional reduction of `main` once the walk has returned
normally. -/
theorem main_walk_ok (rd : String) (repoId : Option String) (fs : RootFs)
    (rep : List JVal → Except String Unit) (hub : Nat → Except String Unit)
    (st : WalkSt) (hst : get_results_from_dir rd fs = .ok st) :
    main rd repoId fs rep hub =
      (match display_results (rep st.results) with
       | (.error e, dlogs) =>
           ⟨.error e, false, st.logs ++ dlogs ++ [LogMsg.error "Error in main execution"]⟩
       | (.ok _, dlogs) =>
           if truthy repoId = true then
             match push_results_to_hub st.results (Option.getD repoId "") hub with
             | ⟨.ok _, _, plogs⟩ => ⟨.ok (), true, st.logs ++ dlogs ++ plogs⟩
             | ⟨.error e, _, plogs⟩ =>
                 ⟨.error e, true,
                  st.logs ++ dlogs ++ plogs ++ [LogMsg.error "Error in main execution"]⟩
           else ⟨.ok (), false, st.logs ++ dlogs⟩) := by
  unfold main
  rw [hst]

/-- With an absent or empty repository identifier the upload branch is
never entered, whatever the walk and report stages do. -/
theorem main_not_truthy (rd : String) (repoId : Option String) (fs : RootFs)
    (rep : List JVal → Except String Unit) (hub : Nat → Except String Unit)
    (ht : truthy repoId = false) :
    (main rd repoId fs rep hub).uploadCalled = false := by
  cases hg : get_results_from_dir rd fs with
  | raised e st =>
      unfold main
      rw [hg]
  | ok st =>
      rw [main_walk_ok rd repoId fs rep hub st hg]
      cases hr : rep st.results with
      | ok u => simp [display_results, ht]
      | error m => simp [display_results]

/-- C5: the uploader is only ever called with a truthy (non-empty)
repository identifier; with an absent or empty identifier it is never
called, so no network call occurs — both unconditionally; and in a run
whose walk and report stages complete normally (the only runs that reach
the dispatch of line 166), the upload step is invoked exactly when the
identifier is truthy. -/
theorem claim_C5 : ∀ (rd : String) (repoId : Option String) (fs : RootFs)
    (rep : List JVal → Except String Unit) (hub : Nat → Except String Unit),
    ((∃ st, get_results_from_dir rd fs = .ok st ∧ rep st.results = .ok ()) →
      (main rd repoId fs rep hub).uploadCalled = truthy repoId) ∧
    (truthy repoId = false → (main rd repoId fs rep hub).uploadCalled = false) ∧
    ((main rd repoId fs rep hub).uploadCalled = true → truthy repoId = true) := by
  intro rd repoId fs rep hub
  refine ⟨?_, main_not_truthy rd repoId fs rep hub, ?_⟩
  · rintro ⟨st, hst, hrep⟩
    rw [main_walk_ok rd repoId fs rep hub st hst, hrep]
    cases ht : truthy repoId with
    | false => simp [display_results, ht]
    | true => cases hh : hub 0 <;> simp [display_results, ht, push_results_to_hub, hh]
  · intro hcall
    by_contra hnt
    rw [Bool.not_eq_true] at hnt
    rw [main_not_truthy rd repoId fs rep hub hnt] at hcall
    cases hcall

/-- Witness for C5: with a root holding one valid numeric result file
(so the rendered table has a numeric column and the report succeeds), a
non-empty identifier triggers the upload and an absent identifier does
not. -/
theorem claim_C5_witness :
    (∃ st, get_results_from_dir "results" fsC5 = .ok st ∧
      (fun _ : List JVal => (Except.ok () : Except String Unit)) st.results = .ok ()) ∧
    (main "results" (some "user/repo") fsC5 (fun _ => Except.ok ())
        (fun _ => Except.ok ())).uploadCalled = truthy (some "user/repo") ∧
    (main "results" none fsC5 (fun _ => Except.ok ())
        (fun _ => Except.ok ())).uploadCalled = false :=
  ⟨⟨⟨[JVal.obj [("model_name", JVal.str "modelV"), ("task1", JVal.num 1)]], [],
     ["results/a/m/run.json"]⟩, rfl, rfl⟩,
   (claim_C5 "results" (some "user/repo") fsC5 (fun _ => Except.ok ())
     (fun _ => Except.ok ())).1
     ⟨⟨[JVal.obj [("model_name", JVal.str "modelV"), ("task1", JVal.num 1)]], [],
       ["results/a/m/run.json"]⟩, rfl, rfl⟩,
   (claim_C5 "results" none fsC5 (fun _ => Except.ok ())
     (fun _ => Except.ok ())).2.1 rfl⟩

/-- C6: when the remote publish fails, the uploader makes exactly one
attempt, logs the error and propagates the failure unchanged — there is
no retry: the attempt count is one.  Invoked from a run whose walk and
report stages completed normally and whose identifier is truthy (the
presupposition of a publish operation taking place), the failure aborts
the run with that same error. -/
theorem claim_C6 : ∀ (results : List JVal) (repo msg rd : String) (fs : RootFs)
    (repoId : Option String) (rep : List JVal → Except String Unit)
    (hub : Nat → Except String Unit),
    hub 0 = .error msg →
    ((push_results_to_hub results repo hub).attempts = 1 ∧
     (push_results_to_hub results repo hub).result = .error (.uploadError msg) ∧
     LogMsg.error ("Error pushing results to hub: " ++ msg)
       ∈ (push_results_to_hub results repo hub).logs) ∧
    (∀ st, get_results_from_dir rd fs = .ok st → rep st.results = .ok () →
      truthy repoId = true →
      (main rd repoId fs rep hub).result = .error (.uploadError msg)) := by
  intro results repo msg rd fs repoId rep hub hh
  refine ⟨⟨by simp [push_results_to_hub, hh], by simp [push_results_to_hub, hh],
    by simp [push_results_to_hub, hh]⟩, ?_⟩
  intro st hst hrep ht
  rw [main_walk_ok rd repoId fs rep hub st hst, hrep]
  simp [display_results, ht, push_results_to_hub, hh]

/-- Witness for C6 with a concrete authentication failure, on a root
holding one valid numeric result file so the report stage succeeds. -/
theorem claim_C6_witness :
    (push_results_to_hub [] "user/repo" (fun _ => Except.error "403 Forbidden")).attempts = 1 ∧
    (push_results_to_hub [] "user/repo" (fun _ => Except.error "403 Forbidden")).result
      = .error (.uploadError "403 Forbidden") ∧
    (main "results" (some "user/repo") fsC6 (fun _ => Except.ok ())
        (fun _ => Except.error "403 Forbidden")).result
      = .error (.uploadError "403 Forbidden") := by
  have h := claim_C6 [] "user/repo" "403 Forbidden" "results" fsC6 (some "user/repo")
    (fun _ => Except.ok ()) (fun _ => Except.error "403 Forbidden") rfl
  exact ⟨h.1.1, h.1.2.1,
    h.2 ⟨[JVal.obj [("model_name", JVal.str "modelU"), ("task1", JVal.num 1)]], [],
      ["results/b/n/run.json"]⟩ rfl rfl rfl⟩

end SmolProc
